import Mathlib

/-!
# Verification of the go-ding-sdk credential cache and backoff policy

Shallow embedding of the core of the `sdk` Go package: the access-token
cache (`DingTalkClient.GetAccessToken`), the jittered exponential backoff
policy (`Backoff.Duration`), and the retrying message-relay operation
(`DingTalkClient.SendMessageFromRobot`).

Modelling conventions:
* `time.Time` and `time.Duration` are nanosecond counts carried as `Int`
  (Go's `time.Duration` is an `int64` of nanoseconds; `time.Second = 10^9`).
* `float64` arithmetic inside `Backoff.Duration` is modelled as exact
  rational arithmetic over `ℚ`; the jitter draw `rand.Float64()*2 - 1` is
  passed in explicitly as a rational `u`.
* The network is an explicit environment value (`FetchResult` for the
  token endpoint, `post : Nat → Option SendMsgByRobotResp` for the relay
  endpoint, indexed by attempt number).
* `time.Now()` is passed in explicitly: `now` for the expiry check at the
  top of `GetAccessToken`, `nowAfter` for the calls made after the fetch
  returns.
-/

/-! ## Backoff policy (backoff.go) -/

/-- The `Backoff` struct of `backoff.go`.  `MaxDelay` and `baseDelay` are
`time.Duration` values (int64 nanoseconds); `factor` and `jitter` are
`float64`, modelled as rationals. -/
structure Backoff where
  MaxDelay : Int
  baseDelay : Int
  factor : ℚ
  jitter : ℚ
deriving DecidableEq

/-- `NewBackoff` with the package defaults: base delay `1.0 * time.Second`,
max delay `3.0 * time.Minute`, factor `1.6`, jitter `0.2`. -/
def NewBackoff : Backoff :=
  { MaxDelay := 180000000000
    baseDelay := 1000000000
    factor := 8/5
    jitter := 1/5 }

/-- The `for backoff < max && retries > 0` loop of `Backoff.Duration`:
repeatedly multiply `b` by `factor`, at most `n` times, stopping early once
`b` reaches `mx`. -/
def backoffLoop (factor mx : ℚ) : ℚ → Nat → ℚ
  | b, 0 => b
  | b, Nat.succ n => if b < mx then backoffLoop factor mx (b * factor) n else b

/-- `Backoff.Duration` of `backoff.go`.  `u` is the jitter draw
`rand.Float64()*2 - 1`.  The final `time.Duration(backoff)` conversion
truncates the float toward zero; on the non-negative branch this is the
floor. -/
def Backoff.Duration (bc : Backoff) (retries : Int) (u : ℚ) : Int :=
  if retries ≤ 0 then bc.baseDelay
  else
    let b0 := backoffLoop bc.factor (bc.MaxDelay : ℚ) (bc.baseDelay : ℚ) retries.toNat
    let b1 := if b0 > (bc.MaxDelay : ℚ) then (bc.MaxDelay : ℚ) else b0
    let b2 := b1 * (1 + bc.jitter * u)
    if b2 < 0 then 0 else Int.floor b2

/-! ## Token cache (GetAccessToken) -/

/-- The `AccessTokenResp` JSON shape (only the fields `GetAccessToken`
reads: the embedded `CommonResp` error pair plus token and TTL). -/
structure AccessTokenResp where
  ErrCode : Int
  ErrMsg : String
  AccessToken : String
  ExpiresIn : Int
deriving DecidableEq

/-- Result of decoding the response body with `readResult`. -/
inductive DecodeResult where
  | fail (msg : String)
  | ok (atr : AccessTokenResp)
deriving DecidableEq

/-- An HTTP response as `GetAccessToken` observes it: status code, status
text, and the (pre-decoded) body. -/
structure HttpResp where
  StatusCode : Nat
  Status : String
  body : DecodeResult
deriving DecidableEq

/-- Outcome of `http.Get` on the token endpoint: a transport error or a
response. -/
inductive FetchResult where
  | fail (msg : String)
  | resp (r : HttpResp)
deriving DecidableEq

/-- The mutable state of `DingTalkClient` that `GetAccessToken` reads and
writes under the mutex: the cached token string and its expiry instant.
The configuration fields (`agentId`, `appKey`, `appSecret`) are immutable
and only feed the request URL, which is part of the environment here. -/
structure DingTalkClient where
  accessToken : String
  expireTime : Int
deriving DecidableEq

/-- The error cases `GetAccessToken` can return, one per `fmt.Errorf`
site: transport error, non-200 status, body read/decode failure, and
application-level rejection (carrying `errmsg`/`errcode`). -/
inductive TokenError where
  | netErr (msg : String)
  | httpErr (status : String) (statusCode : Nat)
  | readErr (msg : String)
  | apiErr (errMsg : String) (errCode : Int)
deriving DecidableEq

/-- What one call to `GetAccessToken` produces: the returned value, the
client state after the call, and whether a network fetch was issued. -/
structure AcquireResult where
  result : Except TokenError String
  state : DingTalkClient
  fetched : Bool

/-- `DingTalkClient.GetAccessToken`.  The mutex serializes the whole body,
so a single call is one atomic step on the client state.  `now` is
`time.Now()` at the expiry check; `nowAfter` is `time.Now()` at the two
call sites after the fetch returns. -/
def DingTalkClient.GetAccessToken (d : DingTalkClient) (now nowAfter : Int)
    (fetch : FetchResult) : AcquireResult :=
  if d.accessToken ≠ "" ∧ now < d.expireTime then
    ⟨.ok d.accessToken, d, false⟩
  else
    match fetch with
    | .fail msg => ⟨.error (.netErr msg), d, true⟩
    | .resp r =>
      if r.StatusCode ≠ 200 then
        ⟨.error (.httpErr r.Status r.StatusCode), d, true⟩
      else
        match r.body with
        | .fail msg => ⟨.error (.readErr msg), d, true⟩
        | .ok atr =>
          if atr.ErrCode ≠ 0 then
            ⟨.error (.apiErr atr.ErrMsg atr.ErrCode), ⟨"", nowAfter⟩, true⟩
          else
            ⟨.ok atr.AccessToken,
             ⟨atr.AccessToken, nowAfter + atr.ExpiresIn * 1000000000⟩, true⟩

/-- A sequence of `GetAccessToken` calls, threading the client state.
Each entry supplies that call's `now`, `nowAfter` and fetch environment.
Returns the list of per-call results, the final state, and the number of
calls that issued a network fetch. -/
def acquireMany : DingTalkClient → List (Int × Int × FetchResult) →
    List (Except TokenError String) × DingTalkClient × Nat
  | d, [] => ([], d, 0)
  | d, c :: rest =>
    let r := d.GetAccessToken c.1 c.2.1 c.2.2
    let rec' := acquireMany r.state rest
    (r.result :: rec'.1, rec'.2.1, (if r.fetched then 1 else 0) + rec'.2.2)

/-! ## Message relay with retry (SendMessageFromRobot) -/

/-- The `MsgContent` request shape. -/
structure MsgContent where
  Title : String
  Text : String
deriving DecidableEq

/-- Minimal JSON string escaping as performed by `json.Marshal` on the two
string fields (quote and backslash; other escapes do not occur in the
properties below and are kept verbatim). -/
def jsonEscape (s : String) : String :=
  s.foldl (fun acc c =>
    if c = '"' then acc ++ "\\\""
    else if c = '\\' then acc ++ "\\\\"
    else acc.push c) ""

/-- `json.Marshal(&MsgContent\x7bTitle: title, Text: content\x7d)`.  In Go
this marshal of a two-string struct cannot fail, so the `err != nil`
branch after it is dead code and the model is total. -/
def marshalMsgContent (m : MsgContent) : String :=
  "\x7b\"title\":\"" ++ jsonEscape m.Title ++ "\",\"text\":\"" ++
    jsonEscape m.Text ++ "\"\x7d"

/-- The `SendMsgByRobotReq` request shape. -/
structure SendMsgByRobotReq where
  RobotCode : String
  UserIDs : List String
  MsgKey : String
  MsgParam : String
deriving DecidableEq

/-- The `SendMsgByRobotResp` response shape. -/
structure SendMsgByRobotResp where
  Code : String
  ReqID : String
  Message : String
  ProcessQueryKey : String
  InvalidStaffIdList : List String
  FlowControlledStaffIdList : List String
deriving DecidableEq

/-- The error cases `SendMessageFromRobot` can return: a token-acquisition
failure passed through unchanged, or the final wrap
`fmt.Errorf(\"... (Retries: %d): %v\", retries, err)` carrying the value of
the `retries` counter when the loop ended with a failure. -/
inductive SendError where
  | tokenErr (e : TokenError)
  | sendErr (retries : Nat)
deriving DecidableEq

/-- What one call to `SendMessageFromRobot` produces: the response and
error actually returned, the relay request object that was built (if the
code reached that point), the number of `post` calls issued to the relay
endpoint, and the list of sleep durations taken between them. -/
structure SendOutcome where
  resp : Option SendMsgByRobotResp
  error : Option SendError
  request : Option SendMsgByRobotReq
  attempts : Nat
  sleeps : List Int

/-- The `for` retry loop of `SendMessageFromRobot`.  `post` gives the relay
endpoint's outcome for each attempt index (`none` = failure), `u` the
jitter draw for each sleep.  Returns the final `retries` counter, the
number of attempts made, the sleeps taken, and the successful response if
any (`none` means the loop ended with `err != nil`). -/
def sendLoop (post : Nat → Option SendMsgByRobotResp) (u : Nat → ℚ)
    (retries attempts : Nat) (sleeps : List Int) :
    Nat × Nat × List Int × Option SendMsgByRobotResp :=
  if _h : retries > 3 then (retries, attempts, sleeps, none)
  else
    match post attempts with
    | some r => (retries, attempts + 1, sleeps, some r)
    | none =>
      sendLoop post u (retries + 1) (attempts + 1)
        (sleeps ++ [NewBackoff.Duration ((retries : Int) + 1) (u attempts)])
termination_by 4 - retries
decreasing_by omega

/-- `DingTalkClient.SendMessageFromRobot`.  Token acquisition goes through
`GetAccessToken` (with its explicit clock and fetch environment); the
relay endpoint and the backoff jitter draws are the explicit environments
`post` and `u`. -/
def DingTalkClient.SendMessageFromRobot (d : DingTalkClient)
    (now nowAfter : Int) (fetch : FetchResult)
    (robotCode title content : String) (toIDs : List String)
    (post : Nat → Option SendMsgByRobotResp) (u : Nat → ℚ) : SendOutcome :=
  match (d.GetAccessToken now nowAfter fetch).result with
  | .error e => ⟨none, some (.tokenErr e), none, 0, []⟩
  | .ok _ =>
    let msg := marshalMsgContent ⟨title, content⟩
    if toIDs.length = 0 then ⟨none, none, none, 0, []⟩
    else
      let toIDs := if toIDs.length > 20 then toIDs.take 20 else toIDs
      let reqObj : SendMsgByRobotReq := ⟨robotCode, toIDs, "officialMarkdownMsg", msg⟩
      match sendLoop post u 0 0 [] with
      | (_, attemptsF, sleepsF, some ret) =>
        ⟨some ret, none, some reqObj, attemptsF, sleepsF⟩
      | (retriesF, attemptsF, sleepsF, none) =>
        ⟨none, some (.sendErr retriesF), some reqObj, attemptsF, sleepsF⟩

/-! ## Token-cache theorems -/

/-- C1: if the cache holds a non-empty token and the current time is before
the stored expiry, `GetAccessToken` returns the cached token with no error,
performs no network fetch, and leaves the state unchanged; a whole sequence
of such calls made before the expiry all return the cached token, leave the
state unchanged, and perform zero fetches in total. -/
theorem getAccessToken_cache_hit (d : DingTalkClient)
    (calls : List (Int × Int × FetchResult))
    (htok : d.accessToken ≠ "")
    (hexp : ∀ c ∈ calls, c.1 < d.expireTime) :
    (∀ (now nowAfter : Int) (fetch : FetchResult), now < d.expireTime →
      d.GetAccessToken now nowAfter fetch = ⟨.ok d.accessToken, d, false⟩) ∧
    acquireMany d calls = (calls.map fun _ => Except.ok d.accessToken, d, 0) := by
  have hone : ∀ (now nowAfter : Int) (fetch : FetchResult), now < d.expireTime →
      d.GetAccessToken now nowAfter fetch = ⟨.ok d.accessToken, d, false⟩ := by
    intro now nowAfter fetch hnow
    simp [DingTalkClient.GetAccessToken, htok, hnow]
  refine ⟨hone, ?_⟩
  induction calls with
  | nil => rfl
  | cons c rest ih =>
    have hc : c.1 < d.expireTime := hexp c (List.mem_cons_self c rest)
    have hrest : ∀ x ∈ rest, x.1 < d.expireTime :=
      fun x hx => hexp x (List.mem_cons_of_mem c hx)
    simp [acquireMany, hone c.1 c.2.1 c.2.2 hc, ih hrest]

/-- Witness for C1 at a concrete client and two concrete pre-expiry calls. -/
theorem getAccessToken_cache_hit_witness :
    (⟨"tok", 100⟩ : DingTalkClient).accessToken ≠ "" ∧
    (∀ c ∈ [((5 : Int), (6 : Int), FetchResult.fail "x"),
            ((50 : Int), (51 : Int), FetchResult.fail "y")],
        c.1 < (⟨"tok", 100⟩ : DingTalkClient).expireTime) ∧
    ((∀ (now nowAfter : Int) (fetch : FetchResult),
        now < (⟨"tok", 100⟩ : DingTalkClient).expireTime →
        DingTalkClient.GetAccessToken ⟨"tok", 100⟩ now nowAfter fetch =
          ⟨.ok "tok", ⟨"tok", 100⟩, false⟩) ∧
      acquireMany ⟨"tok", 100⟩
          [((5 : Int), (6 : Int), FetchResult.fail "x"),
           ((50 : Int), (51 : Int), FetchResult.fail "y")] =
        ([Except.ok "tok", Except.ok "tok"], ⟨"tok", 100⟩, 0)) :=
  ⟨by decide, by decide,
    getAccessToken_cache_hit ⟨"tok", 100⟩ _ (by decide) (by decide)⟩

/-- C2: a well-formed fetch response with non-zero application error code
makes `GetAccessToken` clear the cached token and expiry (token `""`,
expiry the current instant) and return an error carrying the remote
message and code; from the cleared state every subsequent call issues a
network fetch. -/
theorem getAccessToken_app_error_invalidates (d : DingTalkClient)
    (now nowAfter : Int) (r : HttpResp) (atr : AccessTokenResp)
    (hmiss : ¬(d.accessToken ≠ "" ∧ now < d.expireTime))
    (hst : r.StatusCode = 200) (hbody : r.body = .ok atr)
    (hcode : atr.ErrCode ≠ 0) :
    d.GetAccessToken now nowAfter (.resp r) =
      ⟨.error (.apiErr atr.ErrMsg atr.ErrCode), ⟨"", nowAfter⟩, true⟩ ∧
    ∀ (n2 n2' : Int) (f2 : FetchResult),
      (DingTalkClient.GetAccessToken ⟨"", nowAfter⟩ n2 n2' f2).fetched = true := by
  constructor
  · simp [DingTalkClient.GetAccessToken, hmiss, hst, hbody, hcode]
  · intro n2 n2' f2
    cases f2 with
    | fail m => rfl
    | resp r2 =>
      rcases r2 with ⟨sc, st, body⟩
      by_cases h200 : sc = 200
      · subst h200
        cases body with
        | fail m => rfl
        | ok atr2 =>
          by_cases hc : atr2.ErrCode = 0 <;>
            simp [DingTalkClient.GetAccessToken, hc]
      · simp [DingTalkClient.GetAccessToken, h200]

/-- Witness for C2 at a concrete rejected fetch. -/
theorem getAccessToken_app_error_invalidates_witness :
    ¬((⟨"", 0⟩ : DingTalkClient).accessToken ≠ "" ∧ (0 : Int) < (⟨"", 0⟩ : DingTalkClient).expireTime) ∧
    (HttpResp.mk 200 "200 OK" (.ok ⟨40001, "invalid secret", "", 0⟩)).StatusCode = 200 ∧
    (HttpResp.mk 200 "200 OK" (.ok ⟨40001, "invalid secret", "", 0⟩)).body =
      .ok ⟨40001, "invalid secret", "", 0⟩ ∧
    (AccessTokenResp.mk 40001 "invalid secret" "" 0).ErrCode ≠ 0 ∧
    (DingTalkClient.GetAccessToken ⟨"", 0⟩ 0 7 (.resp ⟨200, "200 OK", .ok ⟨40001, "invalid secret", "", 0⟩⟩) =
        ⟨.error (.apiErr "invalid secret" 40001), ⟨"", 7⟩, true⟩ ∧
      ∀ (n2 n2' : Int) (f2 : FetchResult),
        (DingTalkClient.GetAccessToken ⟨"", 7⟩ n2 n2' f2).fetched = true) :=
  ⟨by decide, rfl, rfl, by decide,
    getAccessToken_app_error_invalidates ⟨"", 0⟩ 0 7
      ⟨200, "200 OK", .ok ⟨40001, "invalid secret", "", 0⟩⟩
      ⟨40001, "invalid secret", "", 0⟩ (by decide) rfl rfl (by decide)⟩

/-- C3: when the fetch fails at the transport level (network error or
non-success HTTP status), `GetAccessToken` returns an error and leaves the
cached state exactly as it was. -/
theorem getAccessToken_transport_error_preserves_state (d : DingTalkClient)
    (now nowAfter : Int) (fetch : FetchResult)
    (hmiss : ¬(d.accessToken ≠ "" ∧ now < d.expireTime))
    (htrans : (∃ msg, fetch = .fail msg) ∨
      ∃ r, fetch = .resp r ∧ r.StatusCode ≠ 200) :
    (d.GetAccessToken now nowAfter fetch).state = d ∧
    ∃ e, (d.GetAccessToken now nowAfter fetch).result = .error e := by
  rcases htrans with ⟨msg, rfl⟩ | ⟨r, rfl, h200⟩
  · refine ⟨?_, .netErr msg, ?_⟩ <;>
      simp [DingTalkClient.GetAccessToken, hmiss]
  · refine ⟨?_, .httpErr r.Status r.StatusCode, ?_⟩ <;>
      simp [DingTalkClient.GetAccessToken, hmiss, h200]

/-- Witness for C3: an expired cache entry survives a connection failure
unchanged. -/
theorem getAccessToken_transport_error_preserves_state_witness :
    ¬((⟨"old", 10⟩ : DingTalkClient).accessToken ≠ "" ∧
        (20 : Int) < (⟨"old", 10⟩ : DingTalkClient).expireTime) ∧
    ((∃ msg, FetchResult.fail "conn refused" = FetchResult.fail msg) ∨
      ∃ r, FetchResult.fail "conn refused" = FetchResult.resp r ∧ r.StatusCode ≠ 200) ∧
    ((DingTalkClient.GetAccessToken ⟨"old", 10⟩ 20 21 (.fail "conn refused")).state = ⟨"old", 10⟩ ∧
      ∃ e, (DingTalkClient.GetAccessToken ⟨"old", 10⟩ 20 21 (.fail "conn refused")).result = .error e) :=
  ⟨by decide, Or.inl ⟨"conn refused", rfl⟩,
    getAccessToken_transport_error_preserves_state ⟨"old", 10⟩ 20 21
      (.fail "conn refused") (by decide) (Or.inl ⟨"conn refused", rfl⟩)⟩

/-- C4: a successful fetch (error code zero) stores the returned token,
sets the expiry to the current time plus the returned TTL in seconds
(`expires_in * 10^9` nanoseconds), and returns the token with no error. -/
theorem getAccessToken_success_stores_token (d : DingTalkClient)
    (now nowAfter : Int) (r : HttpResp) (atr : AccessTokenResp)
    (hmiss : ¬(d.accessToken ≠ "" ∧ now < d.expireTime))
    (hst : r.StatusCode = 200) (hbody : r.body = .ok atr)
    (hcode : atr.ErrCode = 0) :
    d.GetAccessToken now nowAfter (.resp r) =
      ⟨.ok atr.AccessToken,
       ⟨atr.AccessToken, nowAfter + atr.ExpiresIn * 1000000000⟩, true⟩ := by
  simp [DingTalkClient.GetAccessToken, hmiss, hst, hbody, hcode]

/-- Witness for C4 at a concrete successful fetch with TTL 7200 seconds. -/
theorem getAccessToken_success_stores_token_witness :
    ¬((⟨"", 0⟩ : DingTalkClient).accessToken ≠ "" ∧
        (0 : Int) < (⟨"", 0⟩ : DingTalkClient).expireTime) ∧
    (HttpResp.mk 200 "200 OK" (.ok ⟨0, "ok", "7122c663", 7200⟩)).StatusCode = 200 ∧
    (HttpResp.mk 200 "200 OK" (.ok ⟨0, "ok", "7122c663", 7200⟩)).body =
      .ok ⟨0, "ok", "7122c663", 7200⟩ ∧
    (AccessTokenResp.mk 0 "ok" "7122c663" 7200).ErrCode = 0 ∧
    DingTalkClient.GetAccessToken ⟨"", 0⟩ 0 5 (.resp ⟨200, "200 OK", .ok ⟨0, "ok", "7122c663", 7200⟩⟩) =
      ⟨.ok "7122c663", ⟨"7122c663", 5 + 7200 * 1000000000⟩, true⟩ :=
  ⟨by decide, rfl, rfl, rfl,
    getAccessToken_success_stores_token ⟨"", 0⟩ 0 5
      ⟨200, "200 OK", .ok ⟨0, "ok", "7122c663", 7200⟩⟩
      ⟨0, "ok", "7122c663", 7200⟩ (by decide) rfl rfl rfl⟩

/-! ## Backoff theorems -/

/-- The multiply loop of `Backoff.Duration` keeps the value non-negative
when the growth factor is non-negative. -/
theorem backoffLoop_nonneg (factor mx : ℚ) (hf : 0 ≤ factor) (n : Nat) :
    ∀ b : ℚ, 0 ≤ b → 0 ≤ backoffLoop factor mx b n := by
  induction n with
  | zero => intro b hb; simpa [backoffLoop] using hb
  | succ n ih =>
    intro b hb
    rw [backoffLoop]
    split
    · exact ih (b * factor) (mul_nonneg hb hf)
    · exact hb

/-- Core bounds for `Backoff.Duration`: for any configuration with a
non-negative base delay below the max delay, a non-negative factor, and a
jitter fraction in `[0, 1]`, every jitter draw in `[-1, 1]` yields a delay
in `[0, MaxDelay * (1 + jitter)]`. -/
theorem duration_bounds_aux (bc : Backoff) (retries : Int) (u : ℚ)
    (hbase : 0 ≤ bc.baseDelay) (hbm : bc.baseDelay ≤ bc.MaxDelay)
    (hf : 0 ≤ bc.factor) (hj0 : 0 ≤ bc.jitter) (hj1 : bc.jitter ≤ 1)
    (hu1 : -1 ≤ u) (hu2 : u ≤ 1) :
    0 ≤ bc.Duration retries u ∧
    ((bc.Duration retries u : ℚ)) ≤ (bc.MaxDelay : ℚ) * (1 + bc.jitter) := by
  have hmax0 : (0 : ℚ) ≤ (bc.MaxDelay : ℚ) := by exact_mod_cast hbase.trans hbm
  have hjmul1 : bc.jitter * u ≤ bc.jitter := by
    calc bc.jitter * u ≤ bc.jitter * 1 := mul_le_mul_of_nonneg_left hu2 hj0
    _ = bc.jitter := mul_one _
  have hjmul2 : bc.jitter * (-1) ≤ bc.jitter * u := mul_le_mul_of_nonneg_left hu1 hj0
  have hc0 : 0 ≤ 1 + bc.jitter * u := by nlinarith
  have hc1 : 1 + bc.jitter * u ≤ 1 + bc.jitter := by linarith
  have hmaxj : (0 : ℚ) ≤ (bc.MaxDelay : ℚ) * (1 + bc.jitter) :=
    mul_nonneg hmax0 (by linarith)
  unfold Backoff.Duration
  by_cases hr : retries ≤ 0
  · rw [if_pos hr]
    refine ⟨hbase, ?_⟩
    have hbq : (bc.baseDelay : ℚ) ≤ (bc.MaxDelay : ℚ) := by exact_mod_cast hbm
    nlinarith
  · rw [if_neg hr]
    dsimp only
    set b0 := backoffLoop bc.factor (bc.MaxDelay : ℚ) (bc.baseDelay : ℚ) retries.toNat with hb0def
    have hb0n : (0 : ℚ) ≤ b0 :=
      backoffLoop_nonneg _ _ hf _ _ (by exact_mod_cast hbase)
    have hb1n : (0 : ℚ) ≤ if b0 > (bc.MaxDelay : ℚ) then (bc.MaxDelay : ℚ) else b0 := by
      split
      · exact hmax0
      · exact hb0n
    have hb1m : (if b0 > (bc.MaxDelay : ℚ) then (bc.MaxDelay : ℚ) else b0) ≤ (bc.MaxDelay : ℚ) := by
      split
      next => exact le_refl _
      next h => exact le_of_not_lt h
    set b1 := if b0 > (bc.MaxDelay : ℚ) then (bc.MaxDelay : ℚ) else b0 with hb1def
    have hb2n : 0 ≤ b1 * (1 + bc.jitter * u) := mul_nonneg hb1n hc0
    have hb2m : b1 * (1 + bc.jitter * u) ≤ (bc.MaxDelay : ℚ) * (1 + bc.jitter) :=
      mul_le_mul hb1m hc1 hc0 hmax0
    by_cases hneg : b1 * (1 + bc.jitter * u) < 0
    · rw [if_pos hneg]
      exact ⟨le_refl 0, by exact_mod_cast hmaxj⟩
    · rw [if_neg hneg]
      constructor
      · exact Int.le_floor.mpr (by exact_mod_cast hb2n)
      · exact (Int.floor_le _).trans hb2m

/-- C5: with the default configuration, for every attempt number `≥ 0` and
every jitter draw `u ∈ [-1, 1]`, the delay satisfies
`0 ≤ Duration ≤ MaxDelay * (1 + jitter)`; in particular it is never
negative. -/
theorem backoff_delay_bounds (retries : Int) (u : ℚ)
    (hr : 0 ≤ retries) (hu1 : -1 ≤ u) (hu2 : u ≤ 1) :
    0 ≤ NewBackoff.Duration retries u ∧
    ((NewBackoff.Duration retries u : ℚ)) ≤
      (NewBackoff.MaxDelay : ℚ) * (1 + NewBackoff.jitter) :=
  duration_bounds_aux NewBackoff retries u (by norm_num [NewBackoff])
    (by norm_num [NewBackoff]) (by norm_num [NewBackoff])
    (by norm_num [NewBackoff]) (by norm_num [NewBackoff]) hu1 hu2

/-- Witness for C5 at attempt 2 with jitter draw 1/2. -/
theorem backoff_delay_bounds_witness :
    (0 : Int) ≤ 2 ∧ (-1 : ℚ) ≤ 1/2 ∧ (1/2 : ℚ) ≤ 1 ∧
    (0 ≤ NewBackoff.Duration 2 (1/2) ∧
      ((NewBackoff.Duration 2 (1/2) : ℚ)) ≤
        (NewBackoff.MaxDelay : ℚ) * (1 + NewBackoff.jitter)) :=
  ⟨by norm_num, by norm_num, by norm_num,
    backoff_delay_bounds 2 (1/2) (by norm_num) (by norm_num) (by norm_num)⟩

/-- C6 counterexample: the delay is *not* always within `[0, MaxDelay]`.
At retry counter 12 the pre-jitter value is clamped to `MaxDelay`
(180 s), and the jitter draw `u = 1/2` then yields
`180 s * 1.1 = 198 s > MaxDelay`. -/
theorem backoff_delay_can_exceed_MaxDelay :
    NewBackoff.MaxDelay < NewBackoff.Duration 12 (1/2) := by
  norm_num [Backoff.Duration, NewBackoff, backoffLoop]

/-- C6 amended: for every retry counter (of any size) and every jitter
draw in `[-1, 1]`, the delay lies in the closed interval
`[0, MaxDelay * (1 + jitter)]` — i.e. `[0, 216 s]` with the defaults, not
`[0, MaxDelay]`. -/
theorem backoff_delay_in_jittered_range (retries : Int) (u : ℚ)
    (hu1 : -1 ≤ u) (hu2 : u ≤ 1) :
    ((NewBackoff.Duration retries u : ℚ)) ∈
      Set.Icc 0 ((NewBackoff.MaxDelay : ℚ) * (1 + NewBackoff.jitter)) := by
  have h := duration_bounds_aux NewBackoff retries u (by norm_num [NewBackoff])
    (by norm_num [NewBackoff]) (by norm_num [NewBackoff])
    (by norm_num [NewBackoff]) (by norm_num [NewBackoff]) hu1 hu2
  exact ⟨by exact_mod_cast h.1, h.2⟩

/-- Witness for the amended C6 at a large retry counter with jitter draw
`-1`. -/
theorem backoff_delay_in_jittered_range_witness :
    (-1 : ℚ) ≤ -1 ∧ (-1 : ℚ) ≤ 1 ∧
    ((NewBackoff.Duration 1000000 (-1) : ℚ)) ∈
      Set.Icc 0 ((NewBackoff.MaxDelay : ℚ) * (1 + NewBackoff.jitter)) :=
  ⟨by norm_num, by norm_num,
    backoff_delay_in_jittered_range 1000000 (-1) (by norm_num) (by norm_num)⟩

/-! ## Message-relay theorems -/

/-- C10: with an acquired token and an empty recipient list,
`SendMessageFromRobot` returns no response and no error, builds no relay
request, and never enters the retry loop. -/
theorem send_empty_recipients_noop (d : DingTalkClient) (now nowAfter : Int)
    (fetch : FetchResult) (robotCode title content : String)
    (post : Nat → Option SendMsgByRobotResp) (u : Nat → ℚ)
    (htok : ∃ t, (d.GetAccessToken now nowAfter fetch).result = .ok t) :
    d.SendMessageFromRobot now nowAfter fetch robotCode title content [] post u =
      ⟨none, none, none, 0, []⟩ := by
  rcases htok with ⟨t, ht⟩
  simp [DingTalkClient.SendMessageFromRobot, ht]

/-- Witness for C10 at a concrete client with a cached valid token. -/
theorem send_empty_recipients_noop_witness :
    (∃ t, (DingTalkClient.GetAccessToken ⟨"tok", 100⟩ 5 6 (.fail "x")).result = .ok t) ∧
    DingTalkClient.SendMessageFromRobot ⟨"tok", 100⟩ 5 6 (.fail "x") "robot1" "hi" "body" []
        (fun _ => none) (fun _ => 0) = ⟨none, none, none, 0, []⟩ :=
  ⟨⟨"tok", rfl⟩,
    send_empty_recipients_noop ⟨"tok", 100⟩ 5 6 (.fail "x") "robot1" "hi" "body"
      (fun _ => none) (fun _ => 0) ⟨"tok", rfl⟩⟩

/-- C8: with an acquired token and 25 recipient identifiers, the relay
request built by `SendMessageFromRobot` carries exactly the first 20 of
them, in order. -/
theorem send_truncates_recipients (d : DingTalkClient) (now nowAfter : Int)
    (fetch : FetchResult) (robotCode title content : String)
    (toIDs : List String) (post : Nat → Option SendMsgByRobotResp) (u : Nat → ℚ)
    (htok : ∃ t, (d.GetAccessToken now nowAfter fetch).result = .ok t)
    (hlen : toIDs.length = 25) :
    (d.SendMessageFromRobot now nowAfter fetch robotCode title content toIDs post u).request =
      some ⟨robotCode, toIDs.take 20, "officialMarkdownMsg",
        marshalMsgContent ⟨title, content⟩⟩ := by
  rcases htok with ⟨t, ht⟩
  rcases hx : sendLoop post u 0 0 [] with ⟨r1, a1, s1, res⟩
  cases res <;> simp [DingTalkClient.SendMessageFromRobot, ht, hlen, hx]

/-- Witness for C8 with 25 concrete recipients. -/
theorem send_truncates_recipients_witness :
    (∃ t, (DingTalkClient.GetAccessToken ⟨"tok", 100⟩ 5 6 (.fail "x")).result = .ok t) ∧
    ([ "u01", "u02", "u03", "u04", "u05", "u06", "u07", "u08", "u09", "u10",
       "u11", "u12", "u13", "u14", "u15", "u16", "u17", "u18", "u19", "u20",
       "u21", "u22", "u23", "u24", "u25" ] : List String).length = 25 ∧
    (DingTalkClient.SendMessageFromRobot ⟨"tok", 100⟩ 5 6 (.fail "x") "robot1" "hi" "body"
        [ "u01", "u02", "u03", "u04", "u05", "u06", "u07", "u08", "u09", "u10",
          "u11", "u12", "u13", "u14", "u15", "u16", "u17", "u18", "u19", "u20",
          "u21", "u22", "u23", "u24", "u25" ]
        (fun _ => none) (fun _ => 0)).request =
      some ⟨"robot1",
        ([ "u01", "u02", "u03", "u04", "u05", "u06", "u07", "u08", "u09", "u10",
           "u11", "u12", "u13", "u14", "u15", "u16", "u17", "u18", "u19", "u20",
           "u21", "u22", "u23", "u24", "u25" ] : List String).take 20,
        "officialMarkdownMsg", marshalMsgContent ⟨"hi", "body"⟩⟩ :=
  ⟨⟨"tok", rfl⟩, rfl,
    send_truncates_recipients ⟨"tok", 100⟩ 5 6 (.fail "x") "robot1" "hi" "body" _
      (fun _ => none) (fun _ => 0) ⟨"tok", rfl⟩ rfl⟩

/-- The retry loop on an always-failing relay endpoint: starting from
`retries = 0`, it posts 4 times (at `retries = 0, 1, 2, 3`), sleeps after
each failure for `Duration(retries + 1)`, and stops with the counter at 4
and no response. -/
theorem sendLoop_all_fail (u : Nat → ℚ) :
    sendLoop (fun _ => none) u 0 0 [] =
      (4, 4, [NewBackoff.Duration 1 (u 0), NewBackoff.Duration 2 (u 1),
              NewBackoff.Duration 3 (u 2), NewBackoff.Duration 4 (u 3)], none) := by
  rw [sendLoop]; norm_num
  rw [sendLoop]; norm_num
  rw [sendLoop]; norm_num
  rw [sendLoop]; norm_num
  rw [sendLoop]; norm_num

/-- C7 amended: when every relay call fails, `SendMessageFromRobot` makes
exactly 4 HTTP attempts (1 initial + 3 retries), sleeps after each failed
attempt for a backoff-policy duration, and returns an error — but the
error reports the loop counter 4, not 3. -/
theorem send_retry_exhausts_four_attempts (d : DingTalkClient) (now nowAfter : Int)
    (fetch : FetchResult) (robotCode title content : String)
    (toIDs : List String) (u : Nat → ℚ)
    (htok : ∃ t, (d.GetAccessToken now nowAfter fetch).result = .ok t)
    (hne : toIDs ≠ []) :
    d.SendMessageFromRobot now nowAfter fetch robotCode title content toIDs
        (fun _ => none) u =
      ⟨none, some (.sendErr 4),
       some ⟨robotCode, if toIDs.length > 20 then toIDs.take 20 else toIDs,
             "officialMarkdownMsg", marshalMsgContent ⟨title, content⟩⟩,
       4,
       [NewBackoff.Duration 1 (u 0), NewBackoff.Duration 2 (u 1),
        NewBackoff.Duration 3 (u 2), NewBackoff.Duration 4 (u 3)]⟩ := by
  rcases htok with ⟨t, ht⟩
  have hlen : toIDs.length ≠ 0 := by
    simpa [List.length_eq_zero] using hne
  simp [DingTalkClient.SendMessageFromRobot, ht, hlen, sendLoop_all_fail u]

/-- Witness for the amended C7 at a concrete single-recipient call. -/
theorem send_retry_exhausts_four_attempts_witness :
    (∃ t, (DingTalkClient.GetAccessToken ⟨"tok", 100⟩ 5 6 (.fail "x")).result = .ok t) ∧
    (["u1"] : List String) ≠ [] ∧
    DingTalkClient.SendMessageFromRobot ⟨"tok", 100⟩ 5 6 (.fail "x") "robot1" "hi" "body"
        ["u1"] (fun _ => none) (fun _ => 0) =
      ⟨none, some (.sendErr 4),
       some ⟨"robot1", if (["u1"] : List String).length > 20 then (["u1"] : List String).take 20 else ["u1"],
             "officialMarkdownMsg", marshalMsgContent ⟨"hi", "body"⟩⟩,
       4,
       [NewBackoff.Duration 1 0, NewBackoff.Duration 2 0,
        NewBackoff.Duration 3 0, NewBackoff.Duration 4 0]⟩ :=
  ⟨⟨"tok", rfl⟩, by decide,
    send_retry_exhausts_four_attempts ⟨"tok", 100⟩ 5 6 (.fail "x") "robot1" "hi" "body"
      ["u1"] (fun _ => 0) ⟨"tok", rfl⟩ (by decide)⟩

/-- C7 counterexample: on an always-failing relay endpoint the error
returned by `SendMessageFromRobot` reports `Retries: 4` (the final value
of the loop counter), not 3 as claimed. -/
theorem send_retry_reports_four_not_three :
    (DingTalkClient.SendMessageFromRobot ⟨"tok", 100⟩ 5 6 (.fail "x") "robot1" "hi" "body"
        ["u1"] (fun _ => none) (fun _ => 0)).error = some (.sendErr 4) ∧
    (DingTalkClient.SendMessageFromRobot ⟨"tok", 100⟩ 5 6 (.fail "x") "robot1" "hi" "body"
        ["u1"] (fun _ => none) (fun _ => 0)).error ≠ some (.sendErr 3) := by
  have hloop : sendLoop (fun _ => none) (fun _ => (0 : ℚ)) 0 0 [] =
      (4, 4, [NewBackoff.Duration 1 0, NewBackoff.Duration 2 0,
              NewBackoff.Duration 3 0, NewBackoff.Duration 4 0], none) := by
    rw [sendLoop]; norm_num
    rw [sendLoop]; norm_num
    rw [sendLoop]; norm_num
    rw [sendLoop]; norm_num
    rw [sendLoop]; norm_num
  constructor <;>
    simp [DingTalkClient.SendMessageFromRobot, hloop,
      show (DingTalkClient.GetAccessToken ⟨"tok", 100⟩ 5 6 (.fail "x")).result = .ok "tok" from rfl]
